import Mathlib

/-
Verification development for the rag_pdf_agent repository: a shallow
embedding of the chunker (ingest.py), the retrieval layer (retriever.py),
the prompt and validation helpers (prompt.py, validate.py) and the chat
agent (chat.py), together with theorems settling the frozen claims.

Modelling conventions:
- Python strings are modelled as List Char (String is used at the agent
  boundary); Python str.strip, str.lower, str.split and the substring
  operator are modelled by pyStrip, pyLower, pySplit and pyContains, with
  Char.isWhitespace standing for the Python whitespace class.
- Fallible Python code is modelled with Option and Except: an exception
  is an error value. Loops whose termination depends on data are modelled
  with a fuel argument returning Option; a none result means the fuel
  bound was exhausted, and for every parameter set the source terminates
  on, the chosen bound is sufficient.
- External collaborators (the embedding model, the faiss index, pdf text
  extraction, the Gemini generator) are modelled as oracle parameters,
  except for the one piece of documented faiss behaviour the retrieval
  code depends on: an exact faiss search asked for more results than the
  index holds pads the result arrays with label -1 and a large negative
  sentinel score. That padding is part of the faiss_search model below.
-/

/-- Model of Python str.strip: drop whitespace from both ends. -/
def pyStrip (l : List Char) : List Char :=
  ((l.dropWhile Char.isWhitespace).reverse.dropWhile Char.isWhitespace).reverse

/-- Model of Python str.lower, applied character by character. -/
def pyLower (l : List Char) : List Char := l.map Char.toLower

/-- Model of the Python substring test (the in operator on strings). -/
def pyContains (needle hay : List Char) : Bool := decide (needle <:+: hay)

/-- Helper for Python str.split with no separator: accumulate the current
token (in reverse) and emit it at each whitespace run or at the end. -/
def pySplitAux : List Char → List Char → List (List Char)
  | [], cur => if cur.isEmpty then [] else [cur.reverse]
  | c :: rest, cur =>
    if c.isWhitespace then
      if cur.isEmpty then pySplitAux rest [] else cur.reverse :: pySplitAux rest []
    else pySplitAux rest (c :: cur)

/-- Model of Python str.split with no separator: split on whitespace runs,
returning no empty tokens. -/
def pySplit (l : List Char) : List (List Char) := pySplitAux l []

/-- Model of the Python slice l[-n:]: the last n elements (all of l when
l has fewer than n elements). -/
def takeLast {α : Type} (n : Nat) (l : List α) : List α := l.drop (l.length - n)

/-- True when the list is nonempty and its first character is not
whitespace. Used to state side conditions on search phrases. -/
def headNotWs : List Char → Bool
  | [] => false
  | c :: _ => !c.isWhitespace

/-- ingest.py PDFChunk: a text chunk with page number and sequential id. -/
structure PDFChunk where
  text : List Char
  page_number : Nat
  chunk_id : Nat
deriving DecidableEq

/-- Decimal digits of a natural number, most significant first, exactly as
Python str(n) renders a nonnegative int. -/
def natDigits (n : Nat) : List Char :=
  if _h : n < 10 then [Nat.digitChar n]
  else natDigits (n / 10) ++ [Nat.digitChar (n % 10)]
decreasing_by exact Nat.div_lt_self (by omega) (by omega)

/-- ingest.py PDFChunk.get_citation: the citation string, an opening
bracket and p, the decimal page number, a colon and c, the decimal chunk
id, and a closing bracket. -/
def get_citation (c : PDFChunk) : List Char :=
  '[' :: 'p' :: (natDigits c.page_number ++ ':' :: 'c' :: (natDigits c.chunk_id ++ [']']))

/-- The Python slice text[start : start + size]. -/
def window (text : List Char) (start size : Nat) : List Char :=
  (text.drop start).take size

/-- ingest.py PDFIngestor.chunk_text, fuelled loop. Mirrors the while loop:
while start < len(text), slice a window, keep its strip when non-empty
(assigning the next chunk id), and advance start by step. The source
advances by chunk_size - chunk_overlap; step receives that value. A none
result means the fuel ran out, which models non-termination: when step is
at least 1, fuel exceeding len(text) - start never runs out. -/
def chunk_text_loop (chunk_size step page_number : Nat) (text : List Char) :
    Nat → Nat → Nat → Option (List PDFChunk)
  | 0, _, _ => none
  | fuel + 1, chunk_id, start =>
    if start < text.length then
      if (pyStrip (window text start chunk_size)).isEmpty then
        chunk_text_loop chunk_size step page_number text fuel chunk_id (start + step)
      else
        (chunk_text_loop chunk_size step page_number text fuel (chunk_id + 1) (start + step)).map
          (fun rest => PDFChunk.mk (pyStrip (window text start chunk_size)) page_number chunk_id :: rest)
    else
      some []

/-- ingest.py PDFIngestor.chunk_text: split text into overlapping chunks
starting at offset 0, with the ingestor parameters chunk_size and
chunk_overlap. Fuel len(text) + 1 is sufficient whenever
chunk_overlap < chunk_size. -/
def chunk_text (chunk_size chunk_overlap : Nat) (text : List Char)
    (page_number start_chunk_id : Nat) : Option (List PDFChunk) :=
  chunk_text_loop chunk_size (chunk_size - chunk_overlap) page_number text
    (text.length + 1) start_chunk_id 0

/-- ingest.py PDFIngestor: the constructor stores the two parameters. -/
structure PDFIngestor where
  chunk_size : Nat
  chunk_overlap : Nat
deriving DecidableEq

/-- ingest.py PDFIngestor.__init__, with Except modelling a possible
raise: the source performs no validation of any kind, so construction
always succeeds, for every parameter pair. -/
def PDFIngestor.construct (chunk_size chunk_overlap : Nat) : Except String PDFIngestor :=
  Except.ok ⟨chunk_size, chunk_overlap⟩

/-- ingest.py PDFIngestor.ingest_pdf, loop over already-extracted pages
(pdf text extraction is an external collaborator): chunk each page,
carrying the chunk id counter forward by the number of chunks produced. -/
def ingest_pages (chunk_size chunk_overlap : Nat) :
    List (Nat × List Char) → Nat → Option (List PDFChunk)
  | [], _ => some []
  | (page_number, text) :: rest, chunk_id =>
    match chunk_text chunk_size chunk_overlap text page_number chunk_id with
    | none => none
    | some page_chunks =>
      (ingest_pages chunk_size chunk_overlap rest (chunk_id + page_chunks.length)).map
        (fun more => page_chunks ++ more)

/-- ingest.py PDFIngestor.ingest_pdf applied to the extracted pages, with
the chunk id counter starting at 0. -/
def ingest_pdf (chunk_size chunk_overlap : Nat) (pages : List (Nat × List Char)) :
    Option (List PDFChunk) :=
  ingest_pages chunk_size chunk_overlap pages 0

/-- The sentinel score faiss fills unmatched result slots with: the exact
value of -FLT_MAX. -/
def padScore : ℚ := -340282346638528859811704183484516925440

/-- Stable insertion of a labelled score into a descending list: an entry
is placed after every entry with a greater or equal score. -/
def insertDesc (p : Int × ℚ) : List (Int × ℚ) → List (Int × ℚ)
  | [] => [p]
  | q :: rest => if q.2 < p.2 then p :: q :: rest else q :: insertDesc p rest

/-- Stable sort of labelled scores into descending order. -/
def sortDesc (l : List (Int × ℚ)) : List (Int × ℚ) := l.foldr insertDesc []

/-- Model of faiss IndexFlatIP.search for one query over an index holding
ntotal vectors, with sim giving the inner product of the query embedding
against stored vector i (the embedding model is an external oracle).
Documented faiss behaviour: exactly top_k result slots are returned; when
top_k exceeds ntotal the spare slots are filled with label -1 and the
sentinel score. -/
def faiss_search (ntotal : Nat) (sim : Nat → ℚ) (top_k : Nat) : List (Int × ℚ) :=
  let top := (sortDesc ((List.range ntotal).map (fun i => (Int.ofNat i, sim i)))).take top_k
  top ++ List.replicate (top_k - top.length) ((-1 : Int), padScore)

/-- Python list indexing as used on self.chunks: a negative index counts
from the end of the list. -/
def pyListGet (chunks : List PDFChunk) (idx : Int) : PDFChunk :=
  if idx < 0 then chunks.getD (chunks.length - (-idx).toNat) (PDFChunk.mk [] 0 0)
  else chunks.getD idx.toNat (PDFChunk.mk [] 0 0)

/-- retriever.py VectorRetriever.retrieve over a built index: run the
faiss search, then keep each (idx, score) pair passing the source guard
idx < len(self.chunks), pairing the score with self.chunks[idx] under
Python indexing. -/
def retrieve (chunks : List PDFChunk) (sim : Nat → ℚ) (top_k : Nat) :
    List (PDFChunk × ℚ) :=
  (faiss_search chunks.length sim top_k).filterMap
    (fun pr => if pr.1 < (chunks.length : Int) then some (pyListGet chunks pr.1, pr.2) else none)

/-- Concrete two-chunk index used to evaluate the retrieval claim. -/
def chunkA : PDFChunk := ⟨"alpha".toList, 1, 0⟩

/-- Second chunk of the concrete two-chunk index. -/
def chunkB : PDFChunk := ⟨"beta".toList, 1, 1⟩

/-- Concrete query-similarity oracle for the two-chunk index: the query
matches chunkA with score 1 and chunkB with score 0. -/
def simC1 : Nat → ℚ := fun i => if i = 0 then 1 else 0

/-- prompt.py not_found_phrases: the fixed refusal phrase list of
is_not_found_response. -/
def not_found_phrases : List (List Char) :=
  ["not found in the document".toList,
   "not mentioned in the document".toList,
   "does not contain".toList,
   "information is not available".toList]

/-- prompt.py is_not_found_response: lowercase and strip the response,
then test whether any refusal phrase occurs as a substring. -/
def is_not_found_response (response : List Char) : Bool :=
  not_found_phrases.any (fun p => pyContains p (pyStrip (pyLower response)))

/-- The refusal predicate exactly as the spec words it: the response,
case-insensitively, contains at least one refusal phrase (no stripping
mentioned). Used to compare the spec wording with the source. -/
def specRefusal (response : List Char) : Bool :=
  not_found_phrases.any (fun p => pyContains p (pyLower response))

/-- validate.py validate_response_format result dictionary. -/
structure ValidationResult where
  has_answer_section : Bool
  has_citations_section : Bool
  has_evidence_section : Bool
  is_not_found : Bool
  valid : Bool
deriving DecidableEq

/-- validate.py validate_response_format: case-sensitive substring tests
for the three section headers and the literal refusal sentence; valid
when the response is a refusal or has all three sections. -/
def validate_response_format (response : List Char) : ValidationResult :=
  let has_answer := pyContains "Answer:".toList response
  let has_citations := pyContains "Citations:".toList response
  let has_evidence := pyContains "Evidence:".toList response
  let is_nf := pyContains "Not found in the document".toList response
  ⟨has_answer, has_citations, has_evidence, is_nf,
   is_nf || (has_answer && has_citations && has_evidence)⟩

/-- Numeric value of a digit string, most significant first, as int()
reads a regex group of digits. -/
def digitsVal (l : List Char) : Nat :=
  l.foldl (fun a c => 10 * a + (c.toNat - 48)) 0

/-- One attempted match of the citation regex at the head of the input:
an opening bracket, p, one or more digits, colon, c, one or more digits,
and a closing bracket. Returns the two numeric groups and the input
remaining after the match. -/
def tryMatchCitation (l : List Char) : Option ((Nat × Nat) × List Char) :=
  match l with
  | '[' :: 'p' :: r =>
    if (r.takeWhile Char.isDigit).isEmpty then none else
    match r.dropWhile Char.isDigit with
    | ':' :: 'c' :: r2 =>
      if (r2.takeWhile Char.isDigit).isEmpty then none else
      match r2.dropWhile Char.isDigit with
      | ']' :: r3 => some ((digitsVal (r.takeWhile Char.isDigit), digitsVal (r2.takeWhile Char.isDigit)), r3)
      | _ => none
    | _ => none
  | _ => none

/-- Scanner for all non-overlapping citation matches in input order, as
re.findall walks the string: try a match at each position, and continue
after the matched text on success or at the next character on failure.
The fuel bound, instantiated with the input length, is sufficient because
every step consumes at least one character. -/
def parse_citations_aux : Nat → List Char → List (Nat × Nat)
  | 0, _ => []
  | _ + 1, [] => []
  | fuel + 1, c :: rest =>
    match tryMatchCitation (c :: rest) with
    | some (pr, rest2) => pr :: parse_citations_aux fuel rest2
    | none => parse_citations_aux fuel rest

/-- prompt.py parse_response_for_citations: all citation-token matches in
order, each reported as its numeric (page, chunk_id) groups. -/
def parse_response_for_citations (response : List Char) : List (Nat × Nat) :=
  parse_citations_aux response.length response

/-- prompt.py SYSTEM_INSTRUCTION, verbatim. -/
def SYSTEM_INSTRUCTION : String :=
  "You are a STRICTLY GROUNDED document assistant. You MUST answer ONLY from the retrieved document chunks provided below.\n\nABSOLUTE RULES (NO EXCEPTIONS):\n1. Answer ONLY using information EXPLICITLY present in the retrieved chunks\n2. NEVER use your general knowledge, training data, or outside information\n3. Do NOT infer, estimate, calculate, or assume ANY information\n4. If the answer is NOT explicitly in the chunks, respond EXACTLY: \"Not found in the document.\"\n5. For numeric questions: Quote EXACT numbers as written in the document\n6. NEVER approximate, round, or calculate numbers\n7. Every factual statement MUST have a citation\n\nMANDATORY RESPONSE FORMAT:\n\nAnswer:\n<short, direct answer using only document text>\n\nCitations:\n[pX:cY], [pA:cB]\n\nEvidence:\n[pX:cY] \"<exact quote from chunk>\"\n[pA:cB] \"<exact quote from chunk>\"\n\nIf information is missing, ambiguous, or requires inference:\nRespond EXACTLY: \"Not found in the document.\"\n\nDo NOT deviate from this format or these rules under ANY circumstances."

/-- prompt.py build_grounded_prompt. The body first assembles the chunk
context and the bounded history (pure string work with no other effect),
and then evaluates an f-string whose text includes the fragment
p-brace-page, c-brace-chunk_id intended as literal citation syntax: the
names page and chunk_id are not defined in that scope, so every call
raises NameError while formatting, and no prompt string is ever
produced. Modelled as the raised exception. -/
def build_grounded_prompt (query : String) (retrieved_chunks : List (PDFChunk × ℚ))
    (conversation_history : List (String × String)) : Except String String :=
  Except.error "NameError: name page is not defined"

/-- prompt.py rewrite_query_with_history: the rewrite prompt built from
the last two turns of history and the follow-up query. -/
def rewrite_query_with_history (query : String)
    (conversation_history : List (String × String)) : String :=
  if conversation_history.isEmpty then query
  else
    "Given the conversation history below, rewrite the follow-up question to be a standalone question that captures the full context.\n\nCONVERSATION HISTORY:\n"
    ++ String.intercalate "\n"
        (((takeLast 2 conversation_history).map
          (fun turn => ["User: " ++ turn.1, "Assistant: " ++ turn.2])).flatten)
    ++ "\n\nFOLLOW-UP QUESTION:\n" ++ query
    ++ "\n\nINSTRUCTIONS:\n- If the question refers to previous context (e.g., \"it\", \"they\", \"that company\"), incorporate that context\n- If the question is already standalone, return it as-is\n- Keep it concise and clear\n- ONLY rewrite for clarity - do NOT add facts or assumptions\n\nSTANDALONE QUESTION:"

/-- Zero-padded three-digit rendering of a number below 1000. -/
def pad3 (n : Nat) : String :=
  if n < 10 then "00" ++ toString n
  else if n < 100 then "0" ++ toString n
  else toString n

/-- Model of Python format specifier .3f on a score: round to the nearest
thousandth and print with exactly three decimals (the float half-even tie
rule is immaterial for the claims, which never format a score). -/
def fmt3 (x : ℚ) : String :=
  (if round (x * 1000) < 0 then "-" else "")
  ++ toString ((round (x * 1000)).natAbs / 1000) ++ "."
  ++ pad3 ((round (x * 1000)).natAbs % 1000)

/-- chat.py _generate_fallback_response, one passage block: rank, page,
score to three decimals, the first 500 characters of the chunk text with
a truncation marker when longer, and a blank line. -/
def passage_block (i : Nat) (c : PDFChunk) (score : ℚ) : String :=
  "--- Passage " ++ toString i ++ " (Page " ++ toString c.page_number
  ++ ", Similarity: " ++ fmt3 score ++ ") ---\n"
  ++ String.mk (c.text.take 500)
  ++ (if 500 < c.text.length then "...\n" else "\n")
  ++ "\n"

/-- chat.py RAGChatAgent._generate_fallback_response: the literal
no-content notice for an empty retrieval, otherwise the deterministic
passage listing with the closing hint. -/
def generate_fallback_response (query : String) (chunks : List (PDFChunk × ℚ)) : String :=
  if chunks.isEmpty then "[FALLBACK MODE] No relevant content found in the document."
  else
    "[FALLBACK MODE - Retrieval Only]\n\n"
    ++ "Found " ++ toString chunks.length ++ " relevant passages:\n\n"
    ++ String.join ((List.enumFrom 1 chunks).map (fun pr => passage_block pr.1 pr.2.1 pr.2.2))
    ++ "\n💡 Note: Set GEMINI_API_KEY to get AI-generated answers instead of raw passages."

/-- chat.py pronoun list of _rewrite_query_if_needed. -/
def pronoun_list : List (List Char) :=
  ["it".toList, "they".toList, "them".toList, "this".toList, "that".toList,
   "these".toList, "those".toList, "he".toList, "she".toList]

/-- chat.py needs_rewrite heuristic: fewer than five whitespace tokens, or
some pronoun occurs as a whole token of the lowercased query. -/
def needs_rewrite (query : String) : Bool :=
  decide ((pySplit query.toList).length < 5)
  || pronoun_list.any (fun p => (pySplit (pyLower query.toList)).contains p)

/-- chat.py RAGChatAgent state: the persistent fallback flag, the
generator handle (an oracle from prompt to generated text, none standing
for a raised exception), and the conversation history. -/
structure AgentState where
  fallback_mode : Bool
  model : Option (String → Option String)
  conversation_history : List (String × String)

/-- chat.py RAGChatAgent.__init__: fallback_mode is set when no api key
is given; otherwise the generator initialisation result decides the mode,
a construction failure (none) switching permanently to fallback. -/
def mkRAGChatAgent (gemini_api_key : Option String)
    (generator_init : Option (String → Option String)) : AgentState :=
  match gemini_api_key with
  | none => ⟨true, none, []⟩
  | some _ =>
    match generator_init with
    | some g => ⟨false, some g, []⟩
    | none => ⟨true, none, []⟩

/-- chat.py RAGChatAgent._rewrite_query_if_needed: pass the query through
in fallback mode or with empty history or when the heuristic does not
fire; otherwise submit the rewrite prompt to the generator and return its
stripped text, falling back to the original query on any failure. -/
def rewrite_query_if_needed (s : AgentState) (query : String) : String :=
  if s.fallback_mode || s.conversation_history.isEmpty then query
  else if needs_rewrite query = false then query
  else
    match s.model with
    | some g =>
      match g (rewrite_query_with_history query s.conversation_history) with
      | some t => String.mk (pyStrip t.toList)
      | none => query
    | none => query

/-- chat.py RAGChatAgent.answer_query, with retrieval abstracted as an
oracle from the (possibly rewritten) query to ranked (chunk, score)
pairs. Fallback mode renders the fallback response directly; generation
mode first builds the grounded prompt outside any handler (so its
NameError propagates), then submits to the generator inside the handler,
degrading to the fallback response on generator failure. Every completed
call appends (original query, answer) to the history. -/
def answer_query (retrieveFn : String → List (PDFChunk × ℚ)) (s : AgentState)
    (user_query : String) : Except String (String × AgentState) :=
  let retrieved := retrieveFn (rewrite_query_if_needed s user_query)
  if s.fallback_mode then
    let answer := generate_fallback_response user_query retrieved
    Except.ok (answer, ⟨s.fallback_mode, s.model,
      s.conversation_history ++ [(user_query, answer)]⟩)
  else
    match build_grounded_prompt user_query retrieved s.conversation_history with
    | Except.error e => Except.error e
    | Except.ok prompt =>
      let answer :=
        match s.model with
        | some g =>
          match g (SYSTEM_INSTRUCTION ++ "\n\n" ++ prompt) with
          | some t => String.mk (pyStrip t.toList)
          | none => generate_fallback_response user_query retrieved
        | none => generate_fallback_response user_query retrieved
      Except.ok (answer, ⟨s.fallback_mode, s.model,
        s.conversation_history ++ [(user_query, answer)]⟩)

/-- Concrete chunker output for the chunk-id witness: text "ab cd" with
chunk_size 3, chunk_overlap 1 and start id 5. -/
def chunksW2 : List PDFChunk :=
  [⟨"ab".toList, 1, 5⟩, ⟨"cd".toList, 1, 6⟩, ⟨"d".toList, 1, 7⟩]

/-- Concrete chunker output for the window-invariant witness: text
" ab  cde" with chunk_size 4, chunk_overlap 1 and start id 0. -/
def chunksW10 : List PDFChunk :=
  [⟨"ab".toList, 2, 0⟩, ⟨"cd".toList, 2, 1⟩, ⟨"de".toList, 2, 2⟩]

lemma mem_dropWhile_of_not {p : Char → Bool} {c : Char} (hc : p c = false) :
    ∀ {l : List Char}, c ∈ l → c ∈ l.dropWhile p := by
  intro l hl
  induction l with
  | nil => simp at hl
  | cons a t ih =>
    rw [List.dropWhile_cons]
    by_cases ha : p a = true
    · rcases List.mem_cons.mp hl with h | h
      · subst h; rw [ha] at hc; cases hc
      · simpa [ha] using ih h
    · simp at ha
      simpa [ha] using hl

lemma mem_pyStrip {c : Char} (hc : c.isWhitespace = false) {l : List Char}
    (hl : c ∈ l) : c ∈ pyStrip l := by
  unfold pyStrip
  have h1 : c ∈ l.dropWhile Char.isWhitespace := mem_dropWhile_of_not hc hl
  have h2 : c ∈ (l.dropWhile Char.isWhitespace).reverse := List.mem_reverse.mpr h1
  have h3 := mem_dropWhile_of_not hc h2
  exact List.mem_reverse.mpr h3

lemma head_dropWhile_not {p : Char → Bool} {l : List Char} {c : Char}
    (h : (l.dropWhile p).head? = some c) : p c = false := by
  induction l with
  | nil => simp [List.dropWhile] at h
  | cons a t ih =>
    rw [List.dropWhile_cons] at h
    split at h
    · exact ih h
    · simp_all

lemma dropWhile_eq_self_of_head {p : Char → Bool} {l : List Char}
    (h : ∀ c, l.head? = some c → p c = false) : l.dropWhile p = l := by
  cases l with
  | nil => rfl
  | cons a t => simp [List.dropWhile_cons, h a rfl]

lemma dropWhile_append_keep (a q : List Char) (hq : headNotWs q = true) :
    ∃ a2, (a ++ q).dropWhile Char.isWhitespace = a2 ++ q := by
  induction a with
  | nil =>
    cases q with
    | nil => simp [headNotWs] at hq
    | cons c q2 =>
      simp only [headNotWs, Bool.not_eq_true'] at hq
      exact ⟨[], by simp [List.dropWhile_cons, hq]⟩
  | cons x a2 ih =>
    by_cases hx : x.isWhitespace = true
    · obtain ⟨a3, ha3⟩ := ih
      exact ⟨a3, by simpa [List.dropWhile_cons, hx] using ha3⟩
    · simp at hx
      exact ⟨x :: a2, by simp [List.dropWhile_cons, hx]⟩

lemma pyStrip_infix_self (l : List Char) : pyStrip l <:+: l := by
  have h1 : l.dropWhile Char.isWhitespace <:+ l := List.dropWhile_suffix _
  obtain ⟨t, ht⟩ := h1
  have h2 : (l.dropWhile Char.isWhitespace).reverse.dropWhile Char.isWhitespace <:+
      (l.dropWhile Char.isWhitespace).reverse := List.dropWhile_suffix _
  obtain ⟨t2, ht2⟩ := h2
  refine ⟨t, t2.reverse, ?_⟩
  have hm := congrArg List.reverse ht2
  simp only [List.reverse_append, List.reverse_reverse] at hm
  show t ++ pyStrip l ++ t2.reverse = l
  unfold pyStrip
  rw [List.append_assoc, hm, ht]

lemma infix_trans {w x y : List Char} (h1 : w <:+: x) (h2 : x <:+: y) : w <:+: y := by
  obtain ⟨s1, t1, rfl⟩ := h1
  obtain ⟨s2, t2, rfl⟩ := h2
  exact ⟨s2 ++ s1, t1 ++ t2, by simp [List.append_assoc]⟩

lemma headNotWs_append {w : List Char} (b : List Char) (h : headNotWs w = true) :
    headNotWs (w ++ b) = true := by
  cases w with
  | nil => simp [headNotWs] at h
  | cons c t => simpa [headNotWs] using h

lemma infix_pyStrip {w l : List Char} (hh : headNotWs w = true)
    (hl : headNotWs w.reverse = true) (h : w <:+: l) : w <:+: pyStrip l := by
  obtain ⟨a, b, hab⟩ := h
  obtain ⟨a2, ha2⟩ := dropWhile_append_keep a (w ++ b) (headNotWs_append b hh)
  have hm : l.dropWhile Char.isWhitespace = a2 ++ (w ++ b) := by
    rw [← hab, List.append_assoc]
    exact ha2
  have hrev : (l.dropWhile Char.isWhitespace).reverse =
      b.reverse ++ (w.reverse ++ a2.reverse) := by
    rw [hm]; simp [List.reverse_append, List.append_assoc]
  obtain ⟨b2, hb2⟩ := dropWhile_append_keep b.reverse (w.reverse ++ a2.reverse)
    (headNotWs_append _ hl)
  refine ⟨a2, b2.reverse, ?_⟩
  unfold pyStrip
  rw [hrev, hb2]
  simp [List.reverse_append, List.append_assoc]

lemma pyContains_pyStrip (w m : List Char) (hh : headNotWs w = true)
    (hl : headNotWs w.reverse = true) :
    pyContains w (pyStrip m) = pyContains w m := by
  unfold pyContains
  apply decide_eq_decide.mpr
  constructor
  · intro h; exact infix_trans h (pyStrip_infix_self m)
  · intro h; exact infix_pyStrip hh hl h

lemma pyStrip_length_le (l : List Char) : (pyStrip l).length ≤ l.length := by
  obtain ⟨s, t, h⟩ := pyStrip_infix_self l
  have := congrArg List.length h
  simp only [List.length_append] at this
  omega

lemma pyStrip_idem (l : List Char) : pyStrip (pyStrip l) = pyStrip l := by
  have hsuffix : (l.dropWhile Char.isWhitespace).reverse.dropWhile Char.isWhitespace <:+
      (l.dropWhile Char.isWhitespace).reverse := List.dropWhile_suffix _
  obtain ⟨t2, ht2⟩ := hsuffix
  have hm : pyStrip l ++ t2.reverse = l.dropWhile Char.isWhitespace := by
    have := congrArg List.reverse ht2
    simpa [pyStrip, List.reverse_append, List.reverse_reverse] using this
  have step1 : (pyStrip l).dropWhile Char.isWhitespace = pyStrip l := by
    apply dropWhile_eq_self_of_head
    intro c hc
    cases hps : pyStrip l with
    | nil => rw [hps] at hc; cases hc
    | cons d r =>
      rw [hps] at hc
      simp only [List.head?_cons, Option.some.injEq] at hc
      subst hc
      have hhead : (l.dropWhile Char.isWhitespace).head? = some d := by
        rw [← hm, hps]; simp
      exact head_dropWhile_not hhead
  have step2 : (pyStrip l).reverse.dropWhile Char.isWhitespace = (pyStrip l).reverse := by
    apply dropWhile_eq_self_of_head
    intro c hc
    have hps : (pyStrip l).reverse =
        (l.dropWhile Char.isWhitespace).reverse.dropWhile Char.isWhitespace := by
      simp [pyStrip, List.reverse_reverse]
    rw [hps] at hc
    exact head_dropWhile_not hc
  show (((pyStrip l).dropWhile Char.isWhitespace).reverse.dropWhile Char.isWhitespace).reverse = pyStrip l
  rw [step1, step2, List.reverse_reverse]

lemma chunk_text_loop_step (chunk_size step page_number : Nat) (text : List Char)
    (fuel chunk_id start : Nat) (hfuel : fuel ≠ 0) (hstart : start < text.length) :
    chunk_text_loop chunk_size step page_number text fuel chunk_id start =
      if (pyStrip (window text start chunk_size)).isEmpty then
        chunk_text_loop chunk_size step page_number text (fuel - 1) chunk_id (start + step)
      else
        (chunk_text_loop chunk_size step page_number text (fuel - 1) (chunk_id + 1) (start + step)).map
          (fun rest => PDFChunk.mk (pyStrip (window text start chunk_size)) page_number chunk_id :: rest) := by
  cases fuel with
  | zero => exact absurd rfl hfuel
  | succ n => simp [chunk_text_loop, hstart]

lemma chunk_text_loop_stop (chunk_size step page_number : Nat) (text : List Char)
    (fuel chunk_id start : Nat) (hfuel : fuel ≠ 0) (hstart : ¬ start < text.length) :
    chunk_text_loop chunk_size step page_number text fuel chunk_id start = some [] := by
  cases fuel with
  | zero => exact absurd rfl hfuel
  | succ n => simp [chunk_text_loop, hstart]

lemma chunk_text_loop_ids (chunk_size step page_number : Nat) (text : List Char) :
    ∀ fuel chunk_id start l,
      chunk_text_loop chunk_size step page_number text fuel chunk_id start = some l →
      l.map PDFChunk.chunk_id = List.range' chunk_id l.length := by
  intro fuel
  induction fuel with
  | zero => intro chunk_id start l h; cases h
  | succ n ih =>
    intro chunk_id start l h
    simp only [chunk_text_loop] at h
    split at h
    · split at h
      · exact ih chunk_id (start + step) l h
      · rcases Option.map_eq_some'.mp h with ⟨l2, hl2, rfl⟩
        have := ih (chunk_id + 1) (start + step) l2 hl2
        simp only [List.map_cons, List.length_cons, this]
        rw [List.range'_succ]
    · cases h
      simp

lemma mem_window (text : List Char) (start size i : Nat) (h1 : start ≤ i)
    (h2 : i < start + size) (hi : i < text.length) :
    text.get ⟨i, hi⟩ ∈ window text start size := by
  have ht : i - start < ((text.drop start).take size).length := by
    simp only [List.length_take, List.length_drop]
    omega
  have he : ((text.drop start).take size).get ⟨i - start, ht⟩ = text.get ⟨i, hi⟩ := by
    have hd : i - start < (text.drop start).length := by
      simp only [List.length_drop]; omega
    simp only [List.get_eq_getElem]
    rw [List.getElem_take, List.getElem_drop]
    congr 1
    omega
  show text.get ⟨i, hi⟩ ∈ (text.drop start).take size
  rw [← he]
  exact List.get_mem _ _ ht

lemma chunk_text_loop_cover (chunk_size step page_number : Nat) (text : List Char)
    (hstep : step ≤ chunk_size) :
    ∀ fuel chunk_id start l,
      chunk_text_loop chunk_size step page_number text fuel chunk_id start = some l →
      ∀ i (hi : i < text.length), start ≤ i →
        (text.get ⟨i, hi⟩).isWhitespace = false →
        ∃ ch ∈ l, text.get ⟨i, hi⟩ ∈ ch.text := by
  intro fuel
  induction fuel with
  | zero => intro chunk_id start l h; cases h
  | succ n ih =>
    intro chunk_id start l h i hi hstart_le hnw
    simp only [chunk_text_loop] at h
    split at h
    case isTrue hlt =>
      by_cases hin : i < start + chunk_size
      · have hw : text.get ⟨i, hi⟩ ∈ window text start chunk_size :=
          mem_window text start chunk_size i hstart_le hin hi
        have hws : text.get ⟨i, hi⟩ ∈ pyStrip (window text start chunk_size) :=
          mem_pyStrip hnw hw
        have hne : (pyStrip (window text start chunk_size)).isEmpty = false := by
          rcases hx : pyStrip (window text start chunk_size) with _ | ⟨d, r⟩
          · rw [hx] at hws; cases hws
          · simp
        rw [hne] at h
        simp only [Bool.false_eq_true, if_false] at h
        rcases Option.map_eq_some'.mp h with ⟨l2, hl2, rfl⟩
        exact ⟨_, List.mem_cons_self _ _, hws⟩
      · have hrec : start + step ≤ i := by omega
        split at h
        · rcases ih chunk_id (start + step) l h i hi hrec hnw with ⟨ch, hch, hmem⟩
          exact ⟨ch, hch, hmem⟩
        · rcases Option.map_eq_some'.mp h with ⟨l2, hl2, rfl⟩
          rcases ih (chunk_id + 1) (start + step) l2 hl2 i hi hrec hnw with ⟨ch, hch, hmem⟩
          exact ⟨ch, List.mem_cons_of_mem _ hch, hmem⟩
    case isFalse hge => omega

lemma chunk_text_loop_offsets (chunk_size step page_number : Nat) (text : List Char) :
    ∀ fuel chunk_id start l,
      chunk_text_loop chunk_size step page_number text fuel chunk_id start = some l →
      ∀ ch ∈ l, (∃ k, ch.text = pyStrip (window text (start + k * step) chunk_size)) ∧
        ch.text ≠ [] := by
  intro fuel
  induction fuel with
  | zero => intro chunk_id start l h; cases h
  | succ n ih =>
    intro chunk_id start l h ch hch
    simp only [chunk_text_loop] at h
    split at h
    · split at h
      · rcases ih chunk_id (start + step) l h ch hch with ⟨⟨k, hk⟩, hne⟩
        refine ⟨⟨k + 1, ?_⟩, hne⟩
        rw [hk]
        congr 2
        ring
      · case isFalse hne0 =>
        rcases Option.map_eq_some'.mp h with ⟨l2, hl2, rfl⟩
        rcases List.mem_cons.mp hch with hhd | htl
        · subst hhd
          refine ⟨⟨0, by simp⟩, ?_⟩
          simp only [ne_eq]
          intro hnil
          rw [hnil] at hne0
          simp at hne0
        · rcases ih (chunk_id + 1) (start + step) l2 hl2 ch htl with ⟨⟨k, hk⟩, hne⟩
          refine ⟨⟨k + 1, ?_⟩, hne⟩
          rw [hk]
          congr 2
          ring
    · cases h
      cases hch

lemma chunk_text_loop_isSome (chunk_size step page_number : Nat) (text : List Char)
    (hstep : 1 ≤ step) :
    ∀ fuel start chunk_id, text.length - start < fuel →
      (chunk_text_loop chunk_size step page_number text fuel chunk_id start).isSome = true := by
  intro fuel
  induction fuel with
  | zero => intro start chunk_id h; omega
  | succ n ih =>
    intro start chunk_id h
    by_cases hlt : start < text.length
    · simp only [chunk_text_loop, if_pos hlt]
      split
      · exact ih (start + step) chunk_id (by omega)
      · have hrec := ih (start + step) (chunk_id + 1) (by omega)
        cases hx : chunk_text_loop chunk_size step page_number text n (chunk_id + 1) (start + step) with
        | none => rw [hx] at hrec; cases hrec
        | some l2 => rfl
    · simp [chunk_text_loop, hlt]

lemma chunk_text_isSome (chunk_size chunk_overlap : Nat) (text : List Char)
    (page_number start_chunk_id : Nat) (h : chunk_overlap < chunk_size) :
    (chunk_text chunk_size chunk_overlap text page_number start_chunk_id).isSome = true :=
  chunk_text_loop_isSome chunk_size (chunk_size - chunk_overlap) page_number text
    (by omega) (text.length + 1) 0 start_chunk_id (by omega)

lemma chunk_text_loop_zero_step (chunk_size page_number : Nat) (text : List Char)
    (start : Nat) (hlt : start < text.length) :
    ∀ fuel chunk_id, chunk_text_loop chunk_size 0 page_number text fuel chunk_id start = none := by
  intro fuel
  induction fuel with
  | zero => intro chunk_id; rfl
  | succ n ih =>
    intro chunk_id
    simp only [chunk_text_loop, if_pos hlt, Nat.add_zero]
    split
    · exact ih chunk_id
    · rw [ih (chunk_id + 1)]
      rfl

lemma range1_append (s n m : Nat) :
    List.range' s n ++ List.range' (s + n) m = List.range' s (n + m) := by
  simp [Nat.add_comm]

lemma chunk_text_ids (chunk_size chunk_overlap : Nat) (text : List Char)
    (page_number start_chunk_id : Nat) (l : List PDFChunk)
    (h : chunk_text chunk_size chunk_overlap text page_number start_chunk_id = some l) :
    l.map PDFChunk.chunk_id = List.range' start_chunk_id l.length :=
  chunk_text_loop_ids chunk_size (chunk_size - chunk_overlap) page_number text
    (text.length + 1) start_chunk_id 0 l h

lemma ingest_pages_ids (chunk_size chunk_overlap : Nat) :
    ∀ (pages : List (Nat × List Char)) (chunk_id : Nat) (l : List PDFChunk),
      ingest_pages chunk_size chunk_overlap pages chunk_id = some l →
      l.map PDFChunk.chunk_id = List.range' chunk_id l.length := by
  intro pages
  induction pages with
  | nil =>
    intro chunk_id l h
    cases h
    simp
  | cons page rest ih =>
    intro chunk_id l h
    rcases page with ⟨page_number, text⟩
    simp only [ingest_pages] at h
    split at h
    · cases h
    · case h_2 page_chunks hpc =>
      rcases Option.map_eq_some'.mp h with ⟨more, hmore, rfl⟩
      have h1 := chunk_text_ids chunk_size chunk_overlap text page_number chunk_id page_chunks hpc
      have h2 := ih (chunk_id + page_chunks.length) more hmore
      rw [List.map_append, h1, h2, List.length_append]
      exact range1_append chunk_id page_chunks.length more.length

/-- C2: for every text, start id and valid parameters
chunk_overlap < chunk_size, the chunk ids produced by chunk_text are
consecutive, gapless and increasing from the supplied start id; every
non-whitespace character of the text appears in at least one chunk text;
and the full-document pipeline carries the id counter across pages, so
the ids of all chunks of a document are the gapless sequence from 0. -/
theorem spec_c2 :
    (∀ chunk_size chunk_overlap (text : List Char) page_number start_chunk_id l,
        chunk_overlap < chunk_size →
        chunk_text chunk_size chunk_overlap text page_number start_chunk_id = some l →
        l.map PDFChunk.chunk_id = List.range' start_chunk_id l.length ∧
        ∀ i (hi : i < text.length), (text.get ⟨i, hi⟩).isWhitespace = false →
          ∃ ch ∈ l, text.get ⟨i, hi⟩ ∈ ch.text) ∧
    (∀ chunk_size chunk_overlap pages l,
        ingest_pdf chunk_size chunk_overlap pages = some l →
        l.map PDFChunk.chunk_id = List.range' 0 l.length) := by
  constructor
  · intro chunk_size chunk_overlap text page_number start_chunk_id l _hco h
    refine ⟨chunk_text_ids chunk_size chunk_overlap text page_number start_chunk_id l h, ?_⟩
    intro i hi hnw
    exact chunk_text_loop_cover chunk_size (chunk_size - chunk_overlap) page_number text
      (Nat.sub_le chunk_size chunk_overlap) (text.length + 1) start_chunk_id 0 l h
      i hi (Nat.zero_le i) hnw
  · intro chunk_size chunk_overlap pages l h
    exact ingest_pages_ids chunk_size chunk_overlap pages 0 l h

/-- Witness for spec_c2: a concrete run with chunk_size 3, chunk_overlap 1
and start id 5 on the text "ab cd" produces chunks with the gapless ids
5, 6, 7. -/
theorem spec_c2_witness :
    (1 < 3) ∧ chunk_text 3 1 "ab cd".toList 1 5 = some chunksW2 ∧
    chunksW2.map PDFChunk.chunk_id = List.range' 5 chunksW2.length :=
  ⟨by decide, by decide,
    (spec_c2.1 3 1 "ab cd".toList 1 5 chunksW2 (by decide) (by decide)).1⟩

/-- C3: the claim says misconfigured parameters
(chunk_overlap at least chunk_size) are rejected at construction. The
source constructor accepts every parameter pair without any check, and
with the resulting non-positive step chunk_text never terminates on any
non-empty trimmed text: the loop never finishes for any amount of fuel.
This theorem evaluates the code at the failing input of the claim. -/
theorem spec_c3 :
    PDFIngestor.construct 100 100 = Except.ok ⟨100, 100⟩ ∧
    (∀ fuel chunk_id, chunk_text_loop 100 0 1 "a".toList fuel chunk_id 0 = none) ∧
    chunk_text 100 100 "a".toList 1 0 = none := by
  refine ⟨rfl, ?_, ?_⟩
  · intro fuel chunk_id
    exact chunk_text_loop_zero_step 100 1 "a".toList 0 (by decide) fuel chunk_id
  · exact chunk_text_loop_zero_step 100 1 "a".toList 0 (by decide) 2 0

/-- C9: on a single page of text of length 250 whose four windows are
non-empty after trimming, chunking with chunk_size 100 and chunk_overlap
20 produces exactly 4 chunks with ids 0, 1, 2, 3 whose texts are the
trimmed windows starting at offsets 0, 80, 160 and 240. -/
theorem spec_c9 (text : List Char) (page_number : Nat) (hlen : text.length = 250)
    (h0 : (pyStrip (window text 0 100)).isEmpty = false)
    (h80 : (pyStrip (window text 80 100)).isEmpty = false)
    (h160 : (pyStrip (window text 160 100)).isEmpty = false)
    (h240 : (pyStrip (window text 240 100)).isEmpty = false) :
    chunk_text 100 20 text page_number 0 =
      some [⟨pyStrip (window text 0 100), page_number, 0⟩,
            ⟨pyStrip (window text 80 100), page_number, 1⟩,
            ⟨pyStrip (window text 160 100), page_number, 2⟩,
            ⟨pyStrip (window text 240 100), page_number, 3⟩] := by
  have e0 := chunk_text_loop_step 100 80 page_number text 251 0 0 (by omega) (by omega)
  have e1 := chunk_text_loop_step 100 80 page_number text 250 1 80 (by omega) (by omega)
  have e2 := chunk_text_loop_step 100 80 page_number text 249 2 160 (by omega) (by omega)
  have e3 := chunk_text_loop_step 100 80 page_number text 248 3 240 (by omega) (by omega)
  have e4 := chunk_text_loop_stop 100 80 page_number text 247 4 320 (by omega) (by omega)
  simp only [h0, Bool.false_eq_true, if_false] at e0
  simp only [h80, Bool.false_eq_true, if_false] at e1
  simp only [h160, Bool.false_eq_true, if_false] at e2
  simp only [h240, Bool.false_eq_true, if_false] at e3
  have hstart : chunk_text 100 20 text page_number 0 =
      chunk_text_loop 100 80 page_number text 251 0 0 := by
    unfold chunk_text
    rw [hlen]
  rw [hstart]
  norm_num at e0 e1 e2 e3
  rw [e0, e1, e2, e3, e4]
  rfl

set_option maxRecDepth 10000 in
/-- Witness for spec_c9: the length-250 text of 250 letters x. -/
theorem spec_c9_witness :
    (List.replicate 250 'x').length = 250 ∧
    (pyStrip (window (List.replicate 250 'x') 0 100)).isEmpty = false ∧
    (pyStrip (window (List.replicate 250 'x') 80 100)).isEmpty = false ∧
    (pyStrip (window (List.replicate 250 'x') 160 100)).isEmpty = false ∧
    (pyStrip (window (List.replicate 250 'x') 240 100)).isEmpty = false ∧
    chunk_text 100 20 (List.replicate 250 'x') 7 0 =
      some [⟨pyStrip (window (List.replicate 250 'x') 0 100), 7, 0⟩,
            ⟨pyStrip (window (List.replicate 250 'x') 80 100), 7, 1⟩,
            ⟨pyStrip (window (List.replicate 250 'x') 160 100), 7, 2⟩,
            ⟨pyStrip (window (List.replicate 250 'x') 240 100), 7, 3⟩] :=
  ⟨by decide, by decide, by decide, by decide, by decide,
    spec_c9 (List.replicate 250 'x') 7 (by decide) (by decide) (by decide)
      (by decide) (by decide)⟩

/-- C10: every chunk text produced by chunk_text with valid parameters is
the trimmed window at some offset that is a multiple of
chunk_size - chunk_overlap; consequently it is non-empty, is its own
strip (no leading or trailing whitespace) and is at most chunk_size
characters long. -/
theorem spec_c10 (chunk_size chunk_overlap : Nat) (text : List Char)
    (page_number start_chunk_id : Nat) (l : List PDFChunk)
    (hco : chunk_overlap < chunk_size)
    (h : chunk_text chunk_size chunk_overlap text page_number start_chunk_id = some l) :
    ∀ ch ∈ l,
      (∃ k, ch.text = pyStrip (window text (k * (chunk_size - chunk_overlap)) chunk_size)) ∧
      ch.text ≠ [] ∧ pyStrip ch.text = ch.text ∧ ch.text.length ≤ chunk_size := by
  intro ch hch
  have hoff := chunk_text_loop_offsets chunk_size (chunk_size - chunk_overlap) page_number
    text (text.length + 1) start_chunk_id 0 l h ch hch
  rcases hoff with ⟨⟨k, hk⟩, hne⟩
  have hk2 : ch.text = pyStrip (window text (k * (chunk_size - chunk_overlap)) chunk_size) := by
    simpa using hk
  refine ⟨⟨k, hk2⟩, hne, ?_, ?_⟩
  · rw [hk2]
    exact pyStrip_idem _
  · rw [hk2]
    refine le_trans (pyStrip_length_le _) ?_
    exact le_trans (List.length_take_le _ _) (le_refl _)

/-- Witness for spec_c10: the first chunk of a concrete run with
chunk_size 4 and chunk_overlap 1 on the text sp-ab-sp-sp-cde. -/
theorem spec_c10_witness :
    (1 < 4) ∧ chunk_text 4 1 " ab  cde".toList 2 0 = some chunksW10 ∧
    ((∃ k, (PDFChunk.mk "ab".toList 2 0).text =
        pyStrip (window " ab  cde".toList (k * (4 - 1)) 4)) ∧
      (PDFChunk.mk "ab".toList 2 0).text ≠ [] ∧
      pyStrip (PDFChunk.mk "ab".toList 2 0).text = (PDFChunk.mk "ab".toList 2 0).text ∧
      (PDFChunk.mk "ab".toList 2 0).text.length ≤ 4) :=
  ⟨by decide, by decide,
    spec_c10 4 1 " ab  cde".toList 2 0 chunksW10 (by decide) (by decide)
      (PDFChunk.mk "ab".toList 2 0) (by decide)⟩

/-- C1: the claim says retrieve with top_k greater than the number of
stored chunks returns exactly all stored chunks, each once. On the faiss
padding behaviour (label -1 with the sentinel score for each missing
slot) the source guard idx < len(self.chunks) also admits the padding
label -1, and Python negative indexing then resolves chunks[-1] to the
last chunk: against a 2-chunk index a top_k of 3 yields 3 pairs, with the
last chunk appearing twice, once with the sentinel score. This theorem
evaluates the code at the failing input of the claim. -/
theorem spec_c1 :
    retrieve [chunkA, chunkB] simC1 3 =
      [(chunkA, 1), (chunkB, 0), (chunkB, padScore)] ∧
    (retrieve [chunkA, chunkB] simC1 3).length = 3 := by
  constructor
  · decide
  · decide

lemma digitChar_isDigit (d : Nat) (h : d < 10) : (Nat.digitChar d).isDigit = true := by
  interval_cases d <;> decide

lemma digitChar_val (d : Nat) (h : d < 10) : (Nat.digitChar d).toNat - 48 = d := by
  interval_cases d <;> decide

lemma natDigits_ne_nil (n : Nat) : natDigits n ≠ [] := by
  unfold natDigits
  split
  · simp
  · simp

lemma natDigits_isEmpty (n : Nat) : (natDigits n).isEmpty = false := by
  cases hx : natDigits n with
  | nil => exact absurd hx (natDigits_ne_nil n)
  | cons a t => simp

lemma natDigits_all_digit (n : Nat) : ∀ c ∈ natDigits n, c.isDigit = true := by
  induction n using Nat.strong_induction_on with
  | _ n ih =>
    unfold natDigits
    split
    case isTrue h =>
      intro c hc
      simp only [List.mem_singleton] at hc
      subst hc
      exact digitChar_isDigit n (by omega)
    case isFalse h =>
      intro c hc
      rcases List.mem_append.mp hc with h1 | h2
      · exact ih (n / 10) (Nat.div_lt_self (by omega) (by omega)) c h1
      · simp only [List.mem_singleton] at h2
        subst h2
        exact digitChar_isDigit (n % 10) (Nat.mod_lt _ (by omega))

lemma digitsVal_append_singleton (xs : List Char) (c : Char) :
    digitsVal (xs ++ [c]) = 10 * digitsVal xs + (c.toNat - 48) := by
  simp [digitsVal, List.foldl_append]

lemma digitsVal_natDigits (n : Nat) : digitsVal (natDigits n) = n := by
  induction n using Nat.strong_induction_on with
  | _ n ih =>
    unfold natDigits
    split
    case isTrue h =>
      show digitsVal [Nat.digitChar n] = n
      have : digitsVal [Nat.digitChar n] = 10 * 0 + ((Nat.digitChar n).toNat - 48) := rfl
      rw [this, digitChar_val n (by omega)]
      omega
    case isFalse h =>
      rw [digitsVal_append_singleton, ih (n / 10) (Nat.div_lt_self (by omega) (by omega)),
        digitChar_val (n % 10) (Nat.mod_lt _ (by omega))]
      omega

lemma takeWhile_digits (d : List Char) (x : Char) (r : List Char)
    (hd : ∀ c ∈ d, c.isDigit = true) (hx : x.isDigit = false) :
    (d ++ x :: r).takeWhile Char.isDigit = d ∧
    (d ++ x :: r).dropWhile Char.isDigit = x :: r := by
  induction d with
  | nil => simp [List.takeWhile_cons, List.dropWhile_cons, hx]
  | cons a t ih =>
    have ha := hd a (by simp)
    have ht : ∀ c ∈ t, c.isDigit = true := fun c hc => hd c (by simp [hc])
    rcases ih ht with ⟨h1, h2⟩
    constructor
    · simp [List.takeWhile_cons, ha, h1]
    · simp [List.dropWhile_cons, ha, h2]

lemma tryMatch_get_citation (c : PDFChunk) :
    tryMatchCitation (get_citation c) = some ((c.page_number, c.chunk_id), []) := by
  have h1 := takeWhile_digits (natDigits c.page_number) ':'
    ('c' :: (natDigits c.chunk_id ++ [']'])) (natDigits_all_digit _) (by decide)
  have h2 := takeWhile_digits (natDigits c.chunk_id) ']' []
    (natDigits_all_digit _) (by decide)
  show tryMatchCitation ('[' :: 'p' ::
    (natDigits c.page_number ++ ':' :: 'c' :: (natDigits c.chunk_id ++ [']']))) = _
  simp only [tryMatchCitation, h1.1, h1.2, h2.1, h2.2, natDigits_isEmpty,
    Bool.false_eq_true, if_false, digitsVal_natDigits]

lemma parse_citations_aux_step (fuel : Nat) (a : Char) (rest : List Char)
    (pr : Nat × Nat) (rest2 : List Char)
    (h : tryMatchCitation (a :: rest) = some (pr, rest2)) :
    parse_citations_aux (fuel + 1) (a :: rest) = pr :: parse_citations_aux fuel rest2 := by
  simp [parse_citations_aux, h]

/-- C6: the citation round trip is the identity: extracting citations
from the rendered citation string of any chunk yields exactly the single
pair of its page number and chunk id. -/
theorem spec_c6 (c : PDFChunk) :
    parse_response_for_citations (get_citation c) = [(c.page_number, c.chunk_id)] := by
  have hm := tryMatch_get_citation c
  show parse_citations_aux
    ((natDigits c.page_number ++ ':' :: 'c' :: (natDigits c.chunk_id ++ [']'])).length + 1 + 1)
    ('[' :: 'p' :: (natDigits c.page_number ++ ':' :: 'c' :: (natDigits c.chunk_id ++ [']']))) = _
  rw [parse_citations_aux_step _ _ _ _ _ hm]
  simp [parse_citations_aux]

/-- C5 counterexample: the claim says the classification producing
is_refusal is true iff the response case-insensitively contains one of
the fixed refusal phrases. For the response "does not contain" the
case-insensitive containment holds, yet the classifier of
validate_response_format reports is_not_found (the is_refusal field) as
false, because the source tests only the case-sensitive literal
"Not found in the document". -/
theorem spec_c5_counterexample :
    (validate_response_format "does not contain".toList).is_not_found = false ∧
    specRefusal "does not contain".toList = true := by
  constructor
  · decide
  · decide

/-- C5 as amended: the helper is_not_found_response agrees everywhere
with the case-insensitive multi-phrase containment test of the spec
wording (stripping changes nothing); the is_refusal field of the
validator classification is instead the case-sensitive containment of
the single literal "Not found in the document"; and classifying the
exact string "Not found in the document." yields is_refusal true and
well_formed true. -/
theorem spec_c5 :
    (∀ r : List Char, is_not_found_response r = specRefusal r) ∧
    (∀ r : List Char, (validate_response_format r).is_not_found =
        pyContains "Not found in the document".toList r) ∧
    (validate_response_format "Not found in the document.".toList).is_not_found = true ∧
    (validate_response_format "Not found in the document.".toList).valid = true := by
  refine ⟨?_, fun r => rfl, by decide, by decide⟩
  intro r
  unfold is_not_found_response specRefusal
  simp only [not_found_phrases, List.any_cons, List.any_nil]
  rw [pyContains_pyStrip "not found in the document".toList (pyLower r) (by decide) (by decide),
    pyContains_pyStrip "not mentioned in the document".toList (pyLower r) (by decide) (by decide),
    pyContains_pyStrip "does not contain".toList (pyLower r) (by decide) (by decide),
    pyContains_pyStrip "information is not available".toList (pyLower r) (by decide) (by decide)]

/-- C4: an agent constructed without a generator is in fallback mode; in
that mode answer_query always succeeds (never raises), its result does
not consult the stored generator handle at all (the answer is the
deterministic fallback rendering for every possible handle), and the
fallback rendering of an empty retrieval result is the literal
no-relevant-content notice. -/
theorem spec_c4 :
    (∀ (retrieveFn : String → List (PDFChunk × ℚ))
        (model : Option (String → Option String))
        (history : List (String × String)) (q : String),
        answer_query retrieveFn ⟨true, model, history⟩ q =
          Except.ok (generate_fallback_response q (retrieveFn q),
            ⟨true, model, history ++ [(q, generate_fallback_response q (retrieveFn q))]⟩)) ∧
    (∀ q : String, generate_fallback_response q [] =
        "[FALLBACK MODE] No relevant content found in the document.") :=
  ⟨fun _ _ _ _ => rfl, fun _ => rfl⟩

/-- C7: query normalization passes the query through unchanged whenever
the history is empty, and whenever the query has at least five
whitespace tokens and no pronoun of the fixed list occurs as a whole
token of the lowercased query; conversely a changed result can only
arise with non-empty history and one of the two trigger conditions. -/
theorem spec_c7 (s : AgentState) (q : String) :
    (s.conversation_history = [] → rewrite_query_if_needed s q = q) ∧
    (5 ≤ (pySplit q.toList).length →
      (∀ p ∈ pronoun_list, (pySplit (pyLower q.toList)).contains p = false) →
      rewrite_query_if_needed s q = q) ∧
    (rewrite_query_if_needed s q ≠ q →
      s.conversation_history ≠ [] ∧
      ((pySplit q.toList).length < 5 ∨
        ∃ p ∈ pronoun_list, (pySplit (pyLower q.toList)).contains p = true)) := by
  refine ⟨?_, ?_, ?_⟩
  · intro h
    simp [rewrite_query_if_needed, h]
  · intro h5 hp
    by_cases hfb : (s.fallback_mode || s.conversation_history.isEmpty) = true
    · simp [rewrite_query_if_needed, hfb]
    · have hnr : needs_rewrite q = false := by
        unfold needs_rewrite
        rw [Bool.or_eq_false_iff]
        constructor
        · rw [decide_eq_false_iff_not]
          omega
        · rw [List.any_eq_false]
          intro p hpmem
          simpa using hp p hpmem
      simp [rewrite_query_if_needed, hfb, hnr]
  · intro hne
    by_cases hhist : s.conversation_history = []
    · exact absurd (by simp [rewrite_query_if_needed, hhist]) hne
    · refine ⟨hhist, ?_⟩
      by_cases h5 : (pySplit q.toList).length < 5
      · exact Or.inl h5
      · right
        by_contra hno
        push_neg at hno
        have hnr : needs_rewrite q = false := by
          unfold needs_rewrite
          rw [Bool.or_eq_false_iff]
          constructor
          · rw [decide_eq_false_iff_not]
            omega
          · rw [List.any_eq_false]
            intro p hpmem
            simpa using hno p hpmem
        apply absurd ?_ hne
        by_cases hfb : (s.fallback_mode || s.conversation_history.isEmpty) = true
        · simp [rewrite_query_if_needed, hfb]
        · simp [rewrite_query_if_needed, hfb, hnr]

/-- Witness for spec_c7: a five-token pronoun-free query passes through
unchanged even with a generator and non-empty history. -/
theorem spec_c7_witness :
    5 ≤ (pySplit ("what is the total revenue" : String).toList).length ∧
    (∀ p ∈ pronoun_list,
      (pySplit (pyLower ("what is the total revenue" : String).toList)).contains p = false) ∧
    rewrite_query_if_needed ⟨false, some (fun _ => some "rewritten"), [("a", "b")]⟩
        "what is the total revenue" = "what is the total revenue" :=
  ⟨by decide, by decide,
    (spec_c7 ⟨false, some (fun _ => some "rewritten"), [("a", "b")]⟩
      "what is the total revenue").2.1 (by decide) (by decide)⟩

/-- C8: the claim says a generator failure during a generation-mode
answer_query degrades only that call to the fallback rendering. In the
source the grounded prompt is built before the generator is ever
invoked, outside the exception handler, and build_grounded_prompt always
raises NameError, so a generation-mode call raises instead of returning
the fallback rendering; the first conjunct evaluates the code there. The
construction-time half of the claim does hold: a failed initialisation
permanently sets fallback_mode, and no answer_query call ever changes
the fallback_mode flag of the resulting state (third conjunct). -/
theorem spec_c8 :
    answer_query (fun _ => []) (mkRAGChatAgent (some "key") (some (fun _ => some "answer")))
        "What is the revenue?" =
      Except.error "NameError: name page is not defined" ∧
    (mkRAGChatAgent (some "key") none).fallback_mode = true ∧
    (∀ (retrieveFn : String → List (PDFChunk × ℚ)) (s : AgentState) (q : String),
      (answer_query retrieveFn s q).map (fun r => r.2.fallback_mode) =
      (answer_query retrieveFn s q).map (fun _ => s.fallback_mode)) := by
  refine ⟨rfl, rfl, ?_⟩
  intro retrieveFn s q
  by_cases hs : s.fallback_mode = true
  · simp [answer_query, hs, Except.map]
  · simp [answer_query, hs, build_grounded_prompt, Except.map]
